import Mathlib

/-!
# Verification of the PLC GitOps agent (PLC_Demo)

Shallow embedding of the orchestration scripts (`grab_archive.py`,
`dev_capture.py`, `deploy_staging.py`, `deploy_prod.py`) and proofs about
the embedded definitions.

Conventions:
* Python text is modelled as `String` / `List Char`; the scripts only ever
  read artifacts via a total decode (`utf-8-sig` with a `latin-1` fallback,
  and `latin-1` decodes every byte string), so file contents are modelled
  directly as decoded text.
* Python exceptions are modelled with `Except String`; `repr(e)` of an
  abstract exception is modelled as its message string.
* External collaborators (git subprocesses, the CODESYS automation API)
  are modelled as oracle structures supplying the observable results of
  each call, exactly at the call granularity of the source.
-/

set_option maxRecDepth 100000

namespace PlcAgent

/-! ## Character and string primitives (Python semantics) -/

/-- Python `str` whitespace, as used by `str.strip()` and `str.splitlines()`
line handling (we only need the classic six characters). -/
def isWs (c : Char) : Bool :=
  c = ' ' || c = '\t' || c = '\n' || c = '\x0d' || c = '\x0b' || c = '\x0c'

/-- `str.strip()`: drop leading and trailing whitespace. -/
def stripChars (l : List Char) : List Char :=
  ((l.dropWhile isWs).reverse.dropWhile isWs).reverse

/-- Worker for `splitLines`: `cur` is the current line, reversed. -/
def splitLinesGo : List Char → List Char → List (List Char)
  | [], cur => if cur = [] then [] else [cur.reverse]
  | '\x0d' :: '\n' :: rest, cur => cur.reverse :: splitLinesGo rest []
  | '\n' :: rest, cur => cur.reverse :: splitLinesGo rest []
  | '\x0d' :: rest, cur => cur.reverse :: splitLinesGo rest []
  | c :: rest, cur => splitLinesGo rest (c :: cur)

/-- Python `str.splitlines()` restricted to the `\n`, `\r`, `\r\n`
terminators (the ones that occur in the artifacts): splits at each
terminator and drops a final empty segment produced by a trailing
terminator, so `"a\n"` gives `["a"]` and `""` gives `[]`. -/
def splitLines (s : List Char) : List (List Char) :=
  splitLinesGo s []

/-- Python `sub in s` on strings: substring containment. -/
def containsSub (pat : List Char) : List Char → Bool
  | [] => pat.isEmpty
  | c :: cs => pat.isPrefixOf (c :: cs) || containsSub pat cs

/-- Leftmost occurrence of the literal `pat`: returns the text before the
occurrence and the text after it. This is `re.search` for a literal
pattern. -/
def splitFirst (pat : List Char) : List Char → Option (List Char × List Char)
  | [] => if pat.isEmpty then some ([], []) else none
  | c :: cs =>
    if pat.isPrefixOf (c :: cs) then some ([], (c :: cs).drop pat.length)
    else
      match splitFirst pat cs with
      | some (p, q) => some (c :: p, q)
      | none => none

/-- Scan an attribute value: consume characters up to and including the
closing double quote, returning the remainder; `none` if no closing quote
follows (the regex `[^"]+"` then has no match here). -/
def attrValEnd : List Char → Option (List Char)
  | [] => none
  | c :: cs => if c = '"' then some cs else attrValEnd cs

/-- Try to match the regex `pat["][^"]+["]` (where `pat` already ends with
`="`) at the head of `s`; on success return the remainder of `s` after the
match.  `[^"]+` is greedy but cannot cross a quote, so the value runs to
the next quote and must be non-empty. -/
def matchAttr (pat : List Char) (s : List Char) : Option (List Char) :=
  if pat.isPrefixOf s then
    match s.drop pat.length with
    | [] => none
    | c :: cs => if c = '"' then none else attrValEnd cs
  else none

/-- `re.sub` for the timestamp patterns: scan left to right, replace each
match by `repl` and continue after it, copy one character otherwise.
`fuel` is an upper bound on the number of scan steps; each step consumes
at least one character, so `fuel = s.length` is exact. -/
def subAttrF (pat repl : List Char) : Nat → List Char → List Char
  | 0, s => s
  | _, [] => []
  | fuel + 1, c :: cs =>
    match matchAttr pat (c :: cs) with
    | some rest => repl ++ subAttrF pat repl fuel rest
    | none => c :: subAttrF pat repl fuel cs

/-- `re.sub(pat-with-quoted-value, repl, s)`. -/
def subAttr (pat repl : List Char) (s : List Char) : List Char :=
  subAttrF pat repl s.length s

/-! ## Sorting (Python `sorted(set(...))` on strings) -/

/-- Python string comparison: lexicographic by code point (`Char`'s linear
order is by scalar value). -/
def lexLt : List Char → List Char → Bool
  | [], [] => false
  | [], _ :: _ => true
  | _ :: _, [] => false
  | a :: as, b :: bs =>
    if a < b then true
    else if b < a then false
    else lexLt as bs

/-- Insert into a strictly sorted list, skipping duplicates. -/
def insertND (a : List Char) : List (List Char) → List (List Char)
  | [] => [a]
  | b :: bs =>
    if a = b then b :: bs
    else if lexLt a b then a :: b :: bs
    else b :: insertND a bs

/-- `sorted(set(l))` for Python strings: the strictly increasing
enumeration of the distinct elements of `l`.  (Python's `set` iteration
order is immaterial because `sorted` with the default key totally orders
distinct strings.) -/
def sortDedup : List (List Char) → List (List Char)
  | [] => []
  | a :: as => insertND a (sortDedup as)

/-! ## `normalize_plcopen_xml` (grab_archive.py lines 285-324)

```python
text = re.sub(r'creationDateTime="[^"]+"', 'creationDateTime="1970-01-01T00:00:00"', text)
text = re.sub(r'modificationDateTime="[^"]+"', 'modificationDateTime="1970-01-01T00:00:00"', text)
m = re.search(r"<PlaceholderRedirections>.*?</PlaceholderRedirections>", text, flags=re.DOTALL)
if m:
    block = m.group(0)
    redirs = [ln.strip() for ln in block.splitlines() if "<PlaceholderRedirection" in ln]
    redirs = sorted(set(redirs))
    indent = "  "
    if redirs:
        new_block = "<PlaceholderRedirections>\n" + "\n".join([indent + r for r in redirs]) + "\n</PlaceholderRedirections>"
    else:
        new_block = "<PlaceholderRedirections>\n</PlaceholderRedirections>"
    text = text[:m.start()] + new_block + text[m.end():]
```
-/

def creationPat : List Char := "creationDateTime=\"".toList

def creationRepl : List Char := "creationDateTime=\"1970-01-01T00:00:00\"".toList

def modifPat : List Char := "modificationDateTime=\"".toList

def modifRepl : List Char := "modificationDateTime=\"1970-01-01T00:00:00\"".toList

/-- The two timestamp substitutions, in source order. -/
def subTs2 (s : List Char) : List Char :=
  subAttr modifPat modifRepl (subAttr creationPat creationRepl s)

def openPat : List Char := "<PlaceholderRedirections>".toList

def closePat : List Char := "</PlaceholderRedirections>".toList

def tagPat : List Char := "<PlaceholderRedirection".toList

/-- `re.search(r"<PlaceholderRedirections>.*?</PlaceholderRedirections>", s, DOTALL)`:
the match starts at the first occurrence of the literal open tag and ends
at the first occurrence of the literal close tag after it (non-greedy
`.*?`).  Returns `(text before, matched block, text after)`. -/
def splitBlock (s : List Char) :
    Option (List Char × List Char × List Char) :=
  match splitFirst openPat s with
  | none => none
  | some (pre, rest) =>
    match splitFirst closePat rest with
    | none => none
    | some (mid, post) => some (pre, openPat ++ mid ++ closePat, post)

/-- `[ln.strip() for ln in block.splitlines() if "<PlaceholderRedirection" in ln]`.
Note the membership test is a plain substring test, so the line holding the
`<PlaceholderRedirections>` open tag itself also qualifies. -/
def redirLines (block : List Char) : List (List Char) :=
  (splitLines block).filterMap fun ln =>
    if containsSub tagPat ln then some (stripChars ln) else none

def indentChars : List Char := [' ', ' ']

/-- `"\n".join([indent + r for r in rs]) ++ "\n"`: every entry indented and
followed by a newline. -/
def entriesPart : List (List Char) → List Char
  | [] => []
  | r :: rs => indentChars ++ r ++ '\n' :: entriesPart rs

/-- Rebuild the canonical block from the sorted entry list. -/
def rebuildBlock (rs : List (List Char)) : List Char :=
  match rs with
  | [] => openPat ++ '\n' :: closePat
  | _ :: _ => openPat ++ '\n' :: entriesPart rs ++ closePat

/-- The block-canonicalization step of `normalize_plcopen_xml`. -/
def blockStep (s : List Char) : List Char :=
  match splitBlock s with
  | none => s
  | some (pre, b, post) =>
    pre ++ rebuildBlock (sortDedup (redirLines b)) ++ post

/-- The complete text transformation applied by
`normalize_plcopen_xml` in `grab_archive.py`. -/
def grabNormChars (s : List Char) : List Char :=
  blockStep (subTs2 s)

/-- String-level wrapper for the normalization text transform. -/
def grabNormText (s : String) : String :=
  String.mk (grabNormChars s.toList)

/-! ## File-level `normalize_plcopen_xml` -/

/-- The text-level view of a file as seen by `normalize_plcopen_xml`:
either unreadable (open or read raises) or readable with decoded text
content (the `utf-8-sig` / `latin-1` decode chain is total, so a readable
file always decodes).  This view is adequate for the text-level
properties (which text is computed, whether a rewrite is attempted, what
the call returns); byte-exact properties of the file on disk — the
encode/decode round trip and the non-atomic `open(path,"wb")` write — are
treated by the byte-level model `FileB` below. -/
inductive FileSt where
  | unreadable : FileSt
  | content : String → FileSt
deriving DecidableEq

/-- Result of one call: the file afterwards, the Python return value of
the call, and whether the call rewrote the file. -/
structure NormResult where
  file : FileSt
  ret : Option Bool
  wrote : Bool
deriving DecidableEq

/-- The body of the `try:` block of `normalize_plcopen_xml`, at the
text-level view: read, decode, transform, and rewrite the file when the
text changed.  The function body contains no `return` statement, so the
Python call always evaluates to `None` (`ret = none`).  `.error` models an
exception escaping the body.  At this level the rewrite is a whole-text
update; the truncate-then-write mechanics of `open(path,"wb")` are
modelled byte-exactly by `normBodyB` below. -/
def normBody : FileSt → Except String NormResult
  | .unreadable => .error "IOError"
  | .content t =>
    let t2 := grabNormText t
    if t2 = t then .ok ⟨.content t, none, false⟩
    else .ok ⟨.content t2, none, true⟩

/-- `normalize_plcopen_xml(path)` as a total function on the text-level
file state (the `except` clause swallows every exception, prints a
warning and falls through). -/
def normalize_plcopen_xml (st : FileSt) : NormResult :=
  match normBody st with
  | .ok r => r
  | .error _ => ⟨st, none, false⟩

/-! ## Byte-level file model for `normalize_plcopen_xml`

The source reads raw bytes and decodes them:

```python
try:
    text = raw.decode("utf-8-sig")
    enc = "utf-8"
except:
    text = raw.decode("latin-1")
    enc = "latin-1"
```

and writes back with `open(path, "wb")` / `f.write(text.encode(enc,
errors="replace"))`.  Three byte-level behaviours matter:
* `utf-8-sig` strips a leading BOM, and `"utf-8"` re-encoding does not
  put it back, so a rewrite of a BOM'd file drops the BOM while a no-op
  call keeps the original bytes;
* `latin-1` decodes every byte string, so decoding is total;
* `open(path, "wb")` truncates the file before `f.write` runs, so a
  write-time failure (swallowed by the outer `except`) leaves a
  truncated/partial file on disk. -/

/-- Strict UTF-8 encoding of one scalar value (Python `str` chars coming
from a successful decode are scalar values, so `encode("utf-8")` never
fails on them). -/
def utf8EncodeChar (c : Char) : List Nat :=
  let n := c.toNat
  if n < 0x80 then [n]
  else if n < 0x800 then [0xC0 + n / 0x40, 0x80 + n % 0x40]
  else if n < 0x10000 then
    [0xE0 + n / 0x1000, 0x80 + (n / 0x40) % 0x40, 0x80 + n % 0x40]
  else
    [0xF0 + n / 0x40000, 0x80 + (n / 0x1000) % 0x40,
     0x80 + (n / 0x40) % 0x40, 0x80 + n % 0x40]

def utf8Encode : List Char → List Nat
  | [] => []
  | c :: cs => utf8EncodeChar c ++ utf8Encode cs

/-- A UTF-8 continuation byte. -/
def isCont (b : Nat) : Bool := 0x80 ≤ b && b < 0xC0

/-- Strict UTF-8 decoding (Python's default `errors="strict"`): rejects
bad lead bytes, truncated sequences, overlong forms, surrogates and
values past U+10FFFF.  `fuel` bounds the scan; every step consumes at
least one byte, so `fuel = bs.length` is exact. -/
def utf8DecodeF : Nat → List Nat → Option (List Char)
  | _, [] => some []
  | 0, _ :: _ => none
  | fuel + 1, b :: bs =>
    if b < 0x80 then (utf8DecodeF fuel bs).map (Char.ofNat b :: ·)
    else if b < 0xC2 then none
    else if b < 0xE0 then
      match bs with
      | b1 :: bs1 =>
        if isCont b1 then
          (utf8DecodeF fuel bs1).map (Char.ofNat ((b - 0xC0) * 0x40 + (b1 - 0x80)) :: ·)
        else none
      | [] => none
    else if b < 0xF0 then
      match bs with
      | b1 :: b2 :: bs2 =>
        if isCont b1 && isCont b2 then
          let n := (b - 0xE0) * 0x1000 + (b1 - 0x80) * 0x40 + (b2 - 0x80)
          if n < 0x800 then none
          else if 0xD800 ≤ n && n < 0xE000 then none
          else (utf8DecodeF fuel bs2).map (Char.ofNat n :: ·)
        else none
      | _ => none
    else if b < 0xF5 then
      match bs with
      | b1 :: b2 :: b3 :: bs3 =>
        if isCont b1 && isCont b2 && isCont b3 then
          let n := (b - 0xF0) * 0x40000 + (b1 - 0x80) * 0x1000 +
            (b2 - 0x80) * 0x40 + (b3 - 0x80)
          if n < 0x10000 then none
          else if 0x110000 ≤ n then none
          else (utf8DecodeF fuel bs3).map (Char.ofNat n :: ·)
        else none
      | _ => none
    else none

def utf8Decode (bs : List Nat) : Option (List Char) :=
  utf8DecodeF bs.length bs

def bomBytes : List Nat := [0xEF, 0xBB, 0xBF]

/-- `raw.decode("utf-8-sig")`: strip a leading BOM if present, then
strict UTF-8. -/
def decodeUtf8Sig (bs : List Nat) : Option (List Char) :=
  if bs.take 3 = bomBytes then utf8Decode (bs.drop 3) else utf8Decode bs

/-- The encoding remembered for write-back. -/
inductive Enc where
  | utf8
  | latin1
deriving DecidableEq, Repr

/-- The source's decode chain: `utf-8-sig`, falling back to `latin-1`
(which maps every byte to the scalar of the same value and never
fails). -/
def pyDecode (raw : List Nat) : List Char × Enc :=
  match decodeUtf8Sig raw with
  | some t => (t, .utf8)
  | none => (raw.map Char.ofNat, .latin1)

/-- `text.encode(enc, errors="replace")`: UTF-8 encoding of scalar values
never needs the replacement; `latin-1` replaces chars above U+00FF with
`"?"`. -/
def pyEncode : Enc → List Char → List Nat
  | .utf8, t => utf8Encode t
  | .latin1, t => t.map fun c => if c.toNat < 0x100 then c.toNat else 63

/-- A file at byte level: unreadable, or its raw bytes. -/
inductive FileB where
  | unreadable : FileB
  | bytes : List Nat → FileB
deriving DecidableEq, Repr

/-- Outcome of the `f.write` call when a rewrite is attempted: it either
completes, or raises after `k` bytes reached the (already truncated)
file. -/
inductive WriteRes where
  | ok : WriteRes
  | failAfter : Nat → WriteRes

/-- Result of one byte-level call: the file afterwards, the Python return
value, and whether a rewrite was attempted (the normalized text differed
from the decoded original). -/
structure NormResB where
  file : FileB
  ret : Option Bool
  wrote : Bool
deriving DecidableEq, Repr

/-- The `try:` body at byte level.  An `.error` is an exception raised
inside the body; it carries the file as the body left it — in the
write-failure case `open(path,"wb")` has already truncated the file and
only a prefix of the new bytes reached it. -/
def normBodyB (w : WriteRes) : FileB → Except (String × FileB × Bool) (FileB × Bool)
  | .unreadable => .error ("IOError", .unreadable, false)
  | .bytes raw =>
    let d := pyDecode raw
    let t2 := grabNormChars d.1
    if t2 = d.1 then .ok (.bytes raw, false)
    else
      let out := pyEncode d.2 t2
      match w with
      | .ok => .ok (.bytes out, true)
      | .failAfter k => .error ("f.write failed", .bytes (out.take k), true)

/-- Byte-level `normalize_plcopen_xml`: the `except` clause swallows the
body's exception and the call falls through returning `None`. -/
def normalize_plcopen_xml_b (w : WriteRes) (st : FileB) : NormResB :=
  match normBodyB w st with
  | .ok fw => ⟨fw.1, none, fw.2⟩
  | .error e => ⟨e.2.1, none, e.2.2⟩

/-- What escapes a byte-level call: the `except` clause catches every
body exception (printing a warning), so the call always returns
normally. -/
def normalize_plcopen_xml_b_exc (w : WriteRes) (st : FileB) :
    Except String NormResB :=
  match normBodyB w st with
  | .ok fw => .ok ⟨fw.1, none, fw.2⟩
  | .error e => .ok ⟨e.2.1, none, e.2.2⟩

/-! ## Order lemmas for `lexLt`, `insertND`, `sortDedup` -/

theorem lexLt_irrefl : ∀ a : List Char, lexLt a a = false
  | [] => rfl
  | c :: cs => by
    simp only [lexLt, lt_irrefl, if_false]
    exact lexLt_irrefl cs

theorem lexLt_asymm : ∀ {a b : List Char}, lexLt a b = true → lexLt b a = false
  | [], [], h => by simp [lexLt] at h
  | [], _ :: _, _ => rfl
  | _ :: _, [], h => by simp [lexLt] at h
  | x :: xs, y :: ys, h => by
    simp only [lexLt] at h ⊢
    rcases lt_trichotomy x y with hlt | heq | hgt
    · simp [hlt, not_lt_of_lt hlt, lt_irrefl]
    · subst heq
      simp only [lt_irrefl, if_false] at h ⊢
      exact lexLt_asymm h
    · simp [hgt, not_lt_of_lt hgt, lt_irrefl] at h

theorem lexLt_trichotomy : ∀ {a b : List Char}, a ≠ b →
    lexLt a b = true ∨ lexLt b a = true
  | [], [], h => absurd rfl h
  | [], _ :: _, _ => Or.inl rfl
  | _ :: _, [], _ => Or.inr rfl
  | x :: xs, y :: ys, h => by
    simp only [lexLt]
    rcases lt_trichotomy x y with hlt | heq | hgt
    · left; simp [hlt]
    · subst heq
      have hxs : xs ≠ ys := fun he => h (by rw [he])
      rcases lexLt_trichotomy hxs with h1 | h1
      · left; simp [lt_irrefl, h1]
      · right; simp [lt_irrefl, h1]
    · right; simp [hgt]

theorem lexLt_trans : ∀ {a b c : List Char},
    lexLt a b = true → lexLt b c = true → lexLt a c = true
  | [], _, _ :: _, _, _ => rfl
  | [], [], [], h, _ => by simp [lexLt] at h
  | [], _ :: _, [], _, h2 => by simp [lexLt] at h2
  | _ :: _, [], _, h1, _ => by simp [lexLt] at h1
  | _ :: _, _ :: _, [], _, h2 => by simp [lexLt] at h2
  | x :: xs, y :: ys, z :: zs, h1, h2 => by
    simp only [lexLt] at h1 h2 ⊢
    rcases lt_trichotomy x y with hxy | hxy | hxy
    · rcases lt_trichotomy y z with hyz | hyz | hyz
      · simp [lt_trans hxy hyz]
      · simp [hyz ▸ hxy]
      · simp [hxy, not_lt_of_lt hxy, lt_irrefl] at h1
        simp [hyz, not_lt_of_lt hyz, lt_irrefl] at h2
    · subst hxy
      simp only [lt_irrefl, if_false] at h1
      rcases lt_trichotomy x z with hyz | hyz | hyz
      · simp [hyz]
      · subst hyz
        simp only [lt_irrefl, if_false] at h2 ⊢
        exact lexLt_trans h1 h2
      · simp [hyz, not_lt_of_lt hyz, lt_irrefl] at h2
    · simp [not_lt_of_lt hxy, lt_irrefl, hxy] at h1

/-- The strict order used for canonical sorted lists of entries. -/
def LexR (a b : List Char) : Prop := lexLt a b = true

theorem mem_insertND {x a : List Char} : ∀ {l : List (List Char)},
    x ∈ insertND a l → x = a ∨ x ∈ l
  | [], h => by
    simp [insertND] at h
    exact Or.inl h
  | b :: bs, h => by
    by_cases hab : a = b
    · simp [insertND, hab] at h
      right; simpa using h
    · by_cases hlt : lexLt a b
      · simp [insertND, hab, hlt] at h
        rcases h with h | h | h
        · exact Or.inl h
        · right; simp [h]
        · right; simp [h]
      · simp [insertND, hab, hlt] at h
        rcases h with h | h
        · right; simp [h]
        · rcases mem_insertND h with h1 | h1
          · exact Or.inl h1
          · right; simp [h1]

theorem pairwise_insertND {a : List Char} : ∀ {l : List (List Char)},
    l.Pairwise LexR → (insertND a l).Pairwise LexR
  | [], _ => by simp [insertND, List.pairwise_singleton]
  | b :: bs, h => by
    rcases List.pairwise_cons.mp h with ⟨hb, hbs⟩
    by_cases hab : a = b
    · rw [show insertND a (b :: bs) = b :: bs by simp [insertND, hab]]
      exact h
    · by_cases hlt : lexLt a b = true
      · rw [show insertND a (b :: bs) = a :: b :: bs by simp [insertND, hab, hlt]]
        refine List.pairwise_cons.mpr ⟨?_, h⟩
        intro x hx
        rcases List.mem_cons.mp hx with hx | hx
        · exact hx ▸ hlt
        · exact lexLt_trans hlt (hb x hx)
      · have hba : lexLt b a = true := by
          rcases lexLt_trichotomy hab with h1 | h1
          · exact absurd h1 hlt
          · exact h1
        rw [show insertND a (b :: bs) = b :: insertND a bs by
          simp [insertND, hab, hlt]]
        refine List.pairwise_cons.mpr ⟨?_, pairwise_insertND hbs⟩
        intro x hx
        rcases mem_insertND hx with h1 | h1
        · exact h1 ▸ hba
        · exact hb x h1

theorem pairwise_sortDedup : ∀ l : List (List Char),
    (sortDedup l).Pairwise LexR
  | [] => List.Pairwise.nil
  | _ :: as => pairwise_insertND (pairwise_sortDedup as)

theorem insertND_of_mem {a : List Char} : ∀ {l : List (List Char)},
    l.Pairwise LexR → a ∈ l → insertND a l = l
  | [], _, hm => by simp at hm
  | b :: bs, hp, hm => by
    by_cases hab : a = b
    · simp [insertND, hab]
    · have hmbs : a ∈ bs := by
        rcases List.mem_cons.mp hm with h | h
        · exact absurd h hab
        · exact h
      rcases List.pairwise_cons.mp hp with ⟨hb, hbs⟩
      have hba : lexLt b a = true := hb a hmbs
      have hnlt : ¬ (lexLt a b = true) := by
        intro h1
        rw [lexLt_asymm h1] at hba
        exact Bool.false_ne_true hba
      rw [show insertND a (b :: bs) = b :: insertND a bs by
        simp [insertND, hab, hnlt]]
      rw [insertND_of_mem hbs hmbs]

theorem insertND_of_forall_lt {a : List Char} {l : List (List Char)}
    (h : ∀ x ∈ l, LexR a x) : insertND a l = a :: l := by
  cases l with
  | nil => rfl
  | cons b bs =>
    have hab : lexLt a b = true := h b (by simp)
    have hne : ¬ (a = b) := by
      intro he
      rw [he, lexLt_irrefl] at hab
      exact Bool.false_ne_true hab
    simp only [insertND, hne, if_false, hab, if_true]

theorem sortDedup_of_pairwise : ∀ {l : List (List Char)},
    l.Pairwise LexR → sortDedup l = l
  | [], _ => rfl
  | a :: as, h => by
    rcases List.pairwise_cons.mp h with ⟨ha, has⟩
    simp only [sortDedup]
    rw [sortDedup_of_pairwise has, insertND_of_forall_lt ha]

theorem sortDedup_idem (l : List (List Char)) :
    sortDedup (sortDedup l) = sortDedup l :=
  sortDedup_of_pairwise (pairwise_sortDedup l)

/-! ## Splitting lemmas for the rebuilt block -/

/-- The list contains no line-terminator character. -/
def noTerm (l : List Char) : Bool :=
  l.all fun c => !(c = '\n' || c = '\x0d')

theorem splitLinesGo_nl (rest cur : List Char) :
    splitLinesGo ('\n' :: rest) cur = cur.reverse :: splitLinesGo rest [] :=
  rfl

theorem splitLinesGo_other {c : Char} (hc1 : ¬ c = '\n') (hc2 : ¬ c = '\x0d')
    (rest cur : List Char) :
    splitLinesGo (c :: rest) cur = splitLinesGo rest (c :: cur) := by
  rw [splitLinesGo.eq_def]
  split
  · rename_i heq
    exact absurd heq (List.cons_ne_nil c rest)
  · rename_i heq
    injection heq with h1 h2
    exact absurd h1 hc2
  · rename_i heq
    injection heq with h1 h2
    exact absurd h1 hc1
  · rename_i heq
    injection heq with h1 h2
    exact absurd h1 hc2
  · rename_i heq
    injection heq with h1 h2
    rw [← h1, ← h2]

theorem splitLinesGo_append : ∀ {a : List Char}, noTerm a = true →
    ∀ (cur rest : List Char),
    splitLinesGo (a ++ '\n' :: rest) cur =
      (cur.reverse ++ a) :: splitLinesGo rest []
  | [], _, cur, rest => by simp [splitLinesGo_nl]
  | c :: a, ha, cur, rest => by
    have hc : ¬ (c = '\n') ∧ ¬ (c = '\x0d') := by
      simp [noTerm] at ha
      exact ⟨ha.1.1, ha.1.2⟩
    have ha2 : noTerm a = true := by
      simp [noTerm] at ha ⊢
      exact ha.2
    rw [List.cons_append, splitLinesGo_other hc.1 hc.2,
      splitLinesGo_append ha2 (c :: cur) rest]
    simp

theorem splitLinesGo_last : ∀ {a : List Char}, noTerm a = true → a ≠ [] →
    ∀ cur : List Char, splitLinesGo a cur = [cur.reverse ++ a]
  | [], _, hne, _ => absurd rfl hne
  | c :: a, ha, _, cur => by
    have hc : ¬ (c = '\n') ∧ ¬ (c = '\x0d') := by
      simp [noTerm] at ha
      exact ⟨ha.1.1, ha.1.2⟩
    have ha2 : noTerm a = true := by
      simp [noTerm] at ha ⊢
      exact ha.2
    rw [splitLinesGo_other hc.1 hc.2]
    cases a with
    | nil => simp [splitLinesGo]
    | cons d a2 =>
      rw [splitLinesGo_last ha2 (by simp) (c :: cur)]
      simp

theorem entries_splitLines : ∀ {rs : List (List Char)},
    (∀ r ∈ rs, noTerm r = true) →
    splitLinesGo (entriesPart rs ++ closePat) [] =
      rs.map (fun r => indentChars ++ r) ++ [closePat]
  | [], _ => by
    rw [show entriesPart [] ++ closePat = closePat from rfl]
    rw [splitLinesGo_last (by decide) (by decide) []]
    simp
  | r :: rs, h => by
    have hr : noTerm r = true := h r (by simp)
    have hrs : ∀ x ∈ rs, noTerm x = true := fun x hx => h x (by simp [hx])
    have hnt : noTerm (indentChars ++ r) = true := by
      rw [noTerm, List.all_append]
      simp only [Bool.and_eq_true]
      exact ⟨by decide, hr⟩
    have hre : entriesPart (r :: rs) ++ closePat =
        (indentChars ++ r) ++ '\n' :: (entriesPart rs ++ closePat) := by
      simp [entriesPart]
    rw [hre, splitLinesGo_append hnt, entries_splitLines hrs]
    simp

theorem splitLines_rebuild {rs : List (List Char)} (hne : rs ≠ [])
    (hnt : ∀ r ∈ rs, noTerm r = true) :
    splitLines (rebuildBlock rs) =
      openPat :: rs.map (fun r => indentChars ++ r) ++ [closePat] := by
  cases rs with
  | nil => exact absurd rfl hne
  | cons r rs =>
    have hq : rebuildBlock (r :: rs) =
        openPat ++ '\n' :: (entriesPart (r :: rs) ++ closePat) := by
      simp [rebuildBlock]
    rw [splitLines, hq, splitLinesGo_append (by decide) [],
      entries_splitLines hnt]
    simp

theorem containsSub_append_left {pat : List Char} : ∀ {a l : List Char},
    containsSub pat l = true → containsSub pat (a ++ l) = true
  | [], _, h => h
  | c :: a, l, h => by
    rw [List.cons_append, containsSub, Bool.or_eq_true]
    exact Or.inr (containsSub_append_left h)

theorem stripChars_cons_ws {c : Char} (hc : isWs c = true) (l : List Char) :
    stripChars (c :: l) = stripChars l := by
  simp [stripChars, List.dropWhile_cons, hc]

theorem filterMap_id_of_mem {f : List Char → Option (List Char)} :
    ∀ {rs : List (List Char)}, (∀ r ∈ rs, f r = some r) →
    rs.filterMap f = rs
  | [], _ => rfl
  | r :: rs, h => by
    rw [List.filterMap_cons, h r (by simp),
      filterMap_id_of_mem fun x hx => h x (by simp [hx])]

/-- Re-scanning the rebuilt block recovers the open tag (its line passes
the substring test of the source) followed by the entries themselves. -/
theorem redirLines_rebuild {rs : List (List Char)} (hne : rs ≠ [])
    (hnt : ∀ r ∈ rs, noTerm r = true)
    (hstrip : ∀ r ∈ rs, stripChars r = r)
    (htag : ∀ r ∈ rs, containsSub tagPat r = true) :
    redirLines (rebuildBlock rs) = openPat :: rs := by
  rw [redirLines, splitLines_rebuild hne hnt]
  rw [show (openPat :: rs.map (fun r => indentChars ++ r) ++ [closePat]) =
    openPat :: (rs.map (fun r => indentChars ++ r) ++ [closePat]) by simp]
  rw [List.filterMap_cons]
  rw [show (if containsSub tagPat openPat then some (stripChars openPat)
      else none) = some openPat by decide]
  rw [List.filterMap_append]
  rw [show List.filterMap _ [closePat] = ([] : List (List Char)) by decide]
  rw [List.filterMap_map]
  rw [filterMap_id_of_mem ?_]
  · simp
  · intro r hr
    have h1 : containsSub tagPat (indentChars ++ r) = true :=
      containsSub_append_left (htag r hr)
    have h2 : stripChars (indentChars ++ r) = r := by
      rw [show indentChars ++ r = ' ' :: ' ' :: r from rfl,
        stripChars_cons_ws (by decide), stripChars_cons_ws (by decide),
        hstrip r hr]
    simp only [Function.comp]
    rw [if_pos h1, h2]

/-- The canonical entry list is a fixed point of
extract-canonicalize-rebuild. -/
theorem sortDedup_rebuild_fix {l0 : List (List Char)}
    (hne : sortDedup l0 ≠ [])
    (hnt : ∀ r ∈ sortDedup l0, noTerm r = true)
    (hstrip : ∀ r ∈ sortDedup l0, stripChars r = r)
    (htag : ∀ r ∈ sortDedup l0, containsSub tagPat r = true)
    (hmem : openPat ∈ sortDedup l0) :
    sortDedup (redirLines (rebuildBlock (sortDedup l0))) = sortDedup l0 := by
  rw [redirLines_rebuild hne hnt hstrip htag]
  rw [show sortDedup (openPat :: sortDedup l0) =
    insertND openPat (sortDedup (sortDedup l0)) from rfl]
  rw [sortDedup_idem]
  exact insertND_of_mem (pairwise_sortDedup l0) hmem

/-! ## Claim theorems for the normalizer (C1, C2, C3, C10) -/

theorem toList_mk (l : List Char) : (String.mk l).toList = l := rfl

/-- After any call on a readable file, the file holds the normalized
text (whether or not a rewrite was needed). -/
theorem norm_file_content (t : String) :
    (normalize_plcopen_xml (.content t)).file = .content (grabNormText t) := by
  by_cases h : grabNormText t = t <;>
    simp [normalize_plcopen_xml, normBody, h]

def c1w1 : String :=
  "<project creationDateTime=\"2024-05-05T10:00:00\">\n<PlaceholderRedirections>\n  <PlaceholderRedirection Placeholder=\"b\" />\n    <PlaceholderRedirection Placeholder=\"a\" />\n</PlaceholderRedirections>\n</project>"

def c1w2 : String :=
  "<project creationDateTime=\"2025-12-31T23:59:59\">\n<PlaceholderRedirections>\n <PlaceholderRedirection Placeholder=\"a\" />\n  <PlaceholderRedirection Placeholder=\"b\" />\n</PlaceholderRedirections>\n</project>"

def c1pre : List Char := "<project creationDateTime=\"1970-01-01T00:00:00\">\n".toList

def c1post : List Char := "\n</project>".toList

def c1b1 : List Char :=
  "<PlaceholderRedirections>\n  <PlaceholderRedirection Placeholder=\"b\" />\n    <PlaceholderRedirection Placeholder=\"a\" />\n</PlaceholderRedirections>".toList

def c1b2 : List Char :=
  "<PlaceholderRedirections>\n <PlaceholderRedirection Placeholder=\"a\" />\n  <PlaceholderRedirection Placeholder=\"b\" />\n</PlaceholderRedirections>".toList

/-- Claim C1 (amended): at byte level, two artifacts normalize to
byte-identical file contents when both decode with the same detected
encoding, both agree outside the redirections block after timestamp
replacement, their blocks carry the same sorted set of stripped entry
lines, and both actually get rewritten — then each file ends as the
`enc`-encoding of the one normalized text.  Both-rewritten matters: a
rewrite re-encodes the decoded text (dropping a utf-8 BOM) while a no-op
call keeps the original bytes, so a file already in normalized form keeps
byte differences such as its BOM (see the counterexample). -/
theorem c1_byte_order_invariance
    (raw1 raw2 : List Nat) (t1 t2 pre b1 b2 post : List Char) (enc : Enc)
    (hd1 : pyDecode raw1 = (t1, enc))
    (hd2 : pyDecode raw2 = (t2, enc))
    (h1 : splitBlock (subTs2 t1) = some (pre, b1, post))
    (h2 : splitBlock (subTs2 t2) = some (pre, b2, post))
    (hb : sortDedup (redirLines b1) = sortDedup (redirLines b2))
    (hc1 : grabNormChars t1 ≠ t1)
    (hc2 : grabNormChars t2 ≠ t2) :
    (normalize_plcopen_xml_b .ok (.bytes raw1)).file =
      (normalize_plcopen_xml_b .ok (.bytes raw2)).file ∧
    (normalize_plcopen_xml_b .ok (.bytes raw1)).file =
      .bytes (pyEncode enc (grabNormChars t1)) := by
  have heq : grabNormChars t1 = grabNormChars t2 := by
    simp only [grabNormChars, blockStep, h1, h2, hb]
  have hf1 : (normalize_plcopen_xml_b .ok (.bytes raw1)).file =
      .bytes (pyEncode enc (grabNormChars t1)) := by
    simp [normalize_plcopen_xml_b, normBodyB, hd1, hc1]
  have hf2 : (normalize_plcopen_xml_b .ok (.bytes raw2)).file =
      .bytes (pyEncode enc (grabNormChars t2)) := by
    simp [normalize_plcopen_xml_b, normBodyB, hd2, hc2]
  exact ⟨by rw [hf1, hf2, heq], hf1⟩

/-- The first C1 witness artifact as a BOM'd utf-8 file on disk. -/
def c1braw1 : List Nat := bomBytes ++ utf8Encode c1w1.toList

/-- The second C1 witness artifact as a BOM-less utf-8 file on disk. -/
def c1braw2 : List Nat := utf8Encode c1w2.toList

/-- Witness for C1: two artifacts differing in timestamp value, entry
order, entry-line leading whitespace — and even a BOM — both needing a
rewrite, end with byte-identical contents. -/
theorem c1_byte_order_invariance_witness :
    (pyDecode c1braw1 = (c1w1.toList, Enc.utf8) ∧
     pyDecode c1braw2 = (c1w2.toList, Enc.utf8) ∧
     grabNormChars c1w1.toList ≠ c1w1.toList ∧
     grabNormChars c1w2.toList ≠ c1w2.toList) ∧
    (normalize_plcopen_xml_b .ok (.bytes c1braw1)).file =
      (normalize_plcopen_xml_b .ok (.bytes c1braw2)).file :=
  ⟨⟨by decide, by decide, by decide, by decide⟩,
   (c1_byte_order_invariance c1braw1 c1braw2 c1w1.toList c1w2.toList
     c1pre c1b1 c1b2 c1post Enc.utf8 (by decide) (by decide) (by decide)
     (by decide) (by decide) (by decide) (by decide)).1⟩

def c1x1 : String :=
  "<project><PlaceholderRedirections>\n  <PlaceholderRedirection Placeholder=\"a\" />\n</PlaceholderRedirections></project>"

def c1x2 : String :=
  "<project><PlaceholderRedirections>\n  <PlaceholderRedirection  Placeholder=\"a\" />\n</PlaceholderRedirections></project>"

/-- The normalized fixed-point form of the C2 witness artifact (note the
spurious `<PlaceholderRedirections>` entry line the source itself
produces). -/
def c1canText : String :=
  "<project creationDateTime=\"1970-01-01T00:00:00\">\n<PlaceholderRedirections>\n  <PlaceholderRedirection Placeholder=\"a\" />\n  <PlaceholderRedirection Placeholder=\"b\" />\n  <PlaceholderRedirections>\n</PlaceholderRedirections>\n</project>"

/-- The same text with the two redirection entry lines swapped — it
differs from `c1canText` only in entry order. -/
def c1swapText : String :=
  "<project creationDateTime=\"1970-01-01T00:00:00\">\n<PlaceholderRedirections>\n  <PlaceholderRedirection Placeholder=\"b\" />\n  <PlaceholderRedirection Placeholder=\"a\" />\n  <PlaceholderRedirections>\n</PlaceholderRedirections>\n</project>"

def c1cxraw1 : List Nat := bomBytes ++ utf8Encode c1canText.toList

def c1cxraw2 : List Nat := bomBytes ++ utf8Encode c1swapText.toList

/-- Counterexample to C1 as stated: two BOM'd artifacts differing only in
the order of their PlaceholderRedirection entries do not end
byte-identical, because the already-canonical one is not rewritten (it
keeps its BOM) while the other is re-encoded without the BOM; and two
artifacts differing only in whitespace (a doubled space inside the single
entry) also end byte-different, since the source never collapses
whitespace inside an entry. -/
theorem c1_byte_counterexample :
    (normalize_plcopen_xml_b .ok (.bytes c1cxraw1)).file = .bytes c1cxraw1 ∧
    (normalize_plcopen_xml_b .ok (.bytes c1cxraw2)).file =
      .bytes (utf8Encode c1canText.toList) ∧
    (normalize_plcopen_xml_b .ok (.bytes c1cxraw1)).file ≠
      (normalize_plcopen_xml_b .ok (.bytes c1cxraw2)).file ∧
    (normalize_plcopen_xml_b .ok (.bytes (utf8Encode c1x1.toList))).file ≠
      (normalize_plcopen_xml_b .ok (.bytes (utf8Encode c1x2.toList))).file :=
  ⟨by decide, by decide, by decide, by decide⟩

/-- Claim C2 (amended): on an input whose timestamp-normalized text
re-scans, after one normalization, to the same decomposition around the
canonically rebuilt block, a second call leaves the text unchanged, does
not rewrite the file, and returns `None` (not `false`: the function has no
return statement).  Universal idempotence fails — see the
counterexample. -/
theorem c2_normalize_conditional_idempotence
    (x : String) (pre b post : List Char)
    (hx : splitBlock (subTs2 x.toList) = some (pre, b, post))
    (hts : subTs2 (grabNormChars x.toList) = grabNormChars x.toList)
    (hsb : splitBlock (grabNormChars x.toList) =
      some (pre, rebuildBlock (sortDedup (redirLines b)), post))
    (hne : sortDedup (redirLines b) ≠ [])
    (hnt : ∀ r ∈ sortDedup (redirLines b), noTerm r = true)
    (hstrip : ∀ r ∈ sortDedup (redirLines b), stripChars r = r)
    (htag : ∀ r ∈ sortDedup (redirLines b), containsSub tagPat r = true)
    (hmem : openPat ∈ sortDedup (redirLines b)) :
    grabNormText (grabNormText x) = grabNormText x ∧
    (normalize_plcopen_xml (.content (grabNormText x))).wrote = false ∧
    (normalize_plcopen_xml (.content (grabNormText x))).ret = none := by
  have hfix : grabNormChars (grabNormChars x.toList) = grabNormChars x.toList := by
    conv_lhs => rw [grabNormChars, hts]
    simp only [blockStep, hsb]
    rw [sortDedup_rebuild_fix hne hnt hstrip htag hmem]
    simp only [grabNormChars, blockStep, hx]
  have he : grabNormText (grabNormText x) = grabNormText x := by
    simp only [grabNormText, toList_mk, hfix]
  refine ⟨he, ?_, ?_⟩ <;> simp [normalize_plcopen_xml, normBody, he]

def c2w : String :=
  "<project creationDateTime=\"2024-05-05T10:00:00\">\n<PlaceholderRedirections>\n  <PlaceholderRedirection Placeholder=\"b\" />\n  <PlaceholderRedirection Placeholder=\"a\" />\n</PlaceholderRedirections>\n</project>"

def c2wb : List Char :=
  "<PlaceholderRedirections>\n  <PlaceholderRedirection Placeholder=\"b\" />\n  <PlaceholderRedirection Placeholder=\"a\" />\n</PlaceholderRedirections>".toList

/-- Witness for C2: a typical multi-line artifact satisfies the
side conditions, and a second normalization call is a no-op returning
`None`. -/
theorem c2_normalize_conditional_idempotence_witness :
    (splitBlock (subTs2 c2w.toList) = some (c1pre, c2wb, c1post) ∧
     openPat ∈ sortDedup (redirLines c2wb)) ∧
    grabNormText (grabNormText c2w) = grabNormText c2w ∧
    (normalize_plcopen_xml (.content (grabNormText c2w))).wrote = false :=
  ⟨⟨by decide, by decide⟩,
   (c2_normalize_conditional_idempotence c2w c1pre c2wb c1post
      (by decide) (by decide) (by decide) (by decide) (by decide)
      (by decide) (by decide) (by decide)).1,
   (c2_normalize_conditional_idempotence c2w c1pre c2wb c1post
      (by decide) (by decide) (by decide) (by decide) (by decide)
      (by decide) (by decide) (by decide)).2.1⟩

def c2cx : String :=
  "<project><PlaceholderRedirections><PlaceholderRedirection Placeholder=\"a\" /></PlaceholderRedirections></project>"

/-- Counterexample to C2 as stated: for this well-formed artifact (its
redirections block written on one line) the second call changes the text
again and rewrites the file; moreover the second call returns `None`, not
`false`. -/
theorem c2_idempotence_counterexample :
    grabNormText (grabNormText c2cx) ≠ grabNormText c2cx ∧
    (normalize_plcopen_xml (.content (grabNormText c2cx))).wrote = true ∧
    (normalize_plcopen_xml (.content (grabNormText c2cx))).ret ≠ some false :=
  ⟨by decide, by decide, by decide⟩

/-- Claim C3 (amended): the call rewrites the file exactly when the
normalized text differs from the original, and the file afterwards holds
the normalized text; but the Python function body has no `return`
statement, so the call returns `None`, not a boolean. -/
theorem c3_rewrite_and_return (t : String) :
    ((normalize_plcopen_xml (.content t)).wrote = true ↔ grabNormText t ≠ t) ∧
    (normalize_plcopen_xml (.content t)).ret = none ∧
    (normalize_plcopen_xml (.content t)).file = .content (grabNormText t) := by
  refine ⟨?_, ?_, norm_file_content t⟩ <;>
    by_cases h : grabNormText t = t <;>
      simp [normalize_plcopen_xml, normBody, h]

def c3cx : String := "<x creationDateTime=\"2024-05-05T10:00:00\" />"

/-- Counterexample to C3 as stated: on this input the call rewrites the
file, yet it does not return `true` — it returns `None`. -/
theorem c3_returns_none_counterexample :
    (normalize_plcopen_xml (.content c3cx)).wrote = true ∧
    (normalize_plcopen_xml (.content c3cx)).ret ≠ some true :=
  ⟨by decide, by decide⟩

/-- Claim C10 (amended): `normalize_plcopen_xml` never propagates an
exception — the `try/except` wrapper swallows everything, including an
unreadable file, and the call always returns `None`; a rewrite is
attempted exactly when the normalized text differs from the decoded
original (decoding is total via the `latin-1` fallback); when no rewrite
is attempted the file is left byte-for-byte untouched; and a completed
rewrite leaves the re-encoded normalized text.  The call is however not
atomic: `open(path,"wb")` truncates before writing, so a swallowed
write-time error can leave a truncated file — see the counterexample. -/
theorem c10_total_write_behaviour (w : WriteRes) (st : FileB) :
    normalize_plcopen_xml_b_exc w st = .ok (normalize_plcopen_xml_b w st) ∧
    (normalize_plcopen_xml_b w st).ret = none ∧
    ((normalize_plcopen_xml_b w st).wrote =
      (match st with
       | .unreadable => false
       | .bytes raw => decide (grabNormChars (pyDecode raw).1 ≠ (pyDecode raw).1))) ∧
    ((normalize_plcopen_xml_b w st).wrote = false →
      (normalize_plcopen_xml_b w st).file = st) ∧
    (∀ raw, st = FileB.bytes raw →
      grabNormChars (pyDecode raw).1 ≠ (pyDecode raw).1 →
      (normalize_plcopen_xml_b .ok st).file =
        .bytes (pyEncode (pyDecode raw).2 (grabNormChars (pyDecode raw).1))) := by
  cases st with
  | unreadable =>
    refine ⟨rfl, rfl, rfl, fun _ => rfl, fun raw h => absurd h (by simp)⟩
  | bytes raw =>
    by_cases h : grabNormChars (pyDecode raw).1 = (pyDecode raw).1
    · refine ⟨?_, ?_, ?_, ?_, ?_⟩ <;>
        simp [normalize_plcopen_xml_b, normalize_plcopen_xml_b_exc, normBodyB, h]
    · cases w with
      | ok =>
        refine ⟨?_, ?_, ?_, ?_, ?_⟩ <;>
          simp [normalize_plcopen_xml_b, normalize_plcopen_xml_b_exc, normBodyB, h]
      | failAfter k =>
        refine ⟨?_, ?_, ?_, ?_, ?_⟩ <;>
          simp [normalize_plcopen_xml_b, normalize_plcopen_xml_b_exc, normBodyB, h]

/-- An artifact whose timestamp forces a rewrite. -/
def c10craw : List Nat :=
  utf8Encode "<x creationDateTime=\"2024-05-05T10:00:00\" />".toList

/-- Witness for C10 (amended): on a changed readable file with a
completing write, the call returns `None` and leaves the re-encoded
normalized text; on an unchanged file it leaves the bytes untouched. -/
theorem c10_total_write_behaviour_witness :
    (normalize_plcopen_xml_b .ok (.bytes c10craw)).ret = none ∧
    (normalize_plcopen_xml_b .ok (.bytes c10craw)).file =
      .bytes (pyEncode (pyDecode c10craw).2 (grabNormChars (pyDecode c10craw).1)) ∧
    ((normalize_plcopen_xml_b .ok (.bytes bomBytes)).wrote = false →
      (normalize_plcopen_xml_b .ok (.bytes bomBytes)).file = .bytes bomBytes) :=
  ⟨(c10_total_write_behaviour .ok (.bytes c10craw)).2.1,
   (c10_total_write_behaviour .ok (.bytes c10craw)).2.2.2.2 c10craw rfl (by decide),
   (c10_total_write_behaviour .ok (.bytes bomBytes)).2.2.2.1⟩

/-- Counterexample to C10 as stated: a write failure right after
`open(path,"wb")` truncated the file is swallowed — no exception
escapes, the call returns `None` — but the file on disk is now empty, not
byte-for-byte untouched. -/
theorem c10_truncated_write_counterexample :
    normalize_plcopen_xml_b_exc (.failAfter 0) (.bytes c10craw) =
      .ok (normalize_plcopen_xml_b (.failAfter 0) (.bytes c10craw)) ∧
    normalize_plcopen_xml_b (.failAfter 0) (.bytes c10craw) =
      ⟨.bytes [], none, true⟩ ∧
    FileB.bytes [] ≠ .bytes c10craw :=
  ⟨rfl, by decide, by decide⟩

/-! ## RuntimeConnector: the connect phase of `_connect_and_login`

Two variants exist in the sources:
* `dev_capture.py` lines 294-316 (likewise `deploy_staging.py` /
  `deploy_prod.py`): a `for attempt in [1, 2, 3]` loop, each raising
  attempt records the error and sleeps 3 s, then a bounded poll, then
  `raise Exception("Device did not connect (last_err=%s)" % repr(last_err))`.
* `grab_archive.py` lines 385-401: a single `dev.connect()` guarded by one
  `try`, re-raising immediately as
  `raise Exception("dev.connect failed: %s" % repr(e))`.

The device is an oracle: `outcome n` is the behaviour of the `n`-th
`dev.connect()` call (`none` = returns, `some e` = raises `e`);
`dev.connected` becomes true once some connect call has returned (the
bounded poll loop then observes it; in the model the poll adds no new
information because nothing else can change the device state). -/

structure ConnDev where
  hasConnected : Bool
  connected0 : Bool
  outcome : Nat → Option String

/-- `dev.connected` after `calls` connect calls have been made. -/
def devConnected (d : ConnDev) (calls : Nat) : Bool :=
  d.connected0 || (List.range calls).any fun i => (d.outcome i).isNone

/-- One iteration of the `for attempt in [1, 2, 3]` loop: returns the
updated call count, last error, the sleeps performed, and whether the
loop `break`s. -/
def connAttempt (d : ConnDev) (calls : Nat) (lastErr : Option String) :
    Nat × Option String × List Nat × Bool :=
  if d.hasConnected && devConnected d calls then (calls, lastErr, [], true)
  else
    match d.outcome calls with
    | none => (calls + 1, lastErr, [], true)
    | some e => (calls + 1, some e, [3], false)

/-- The three-iteration connect loop of the `dev_capture.py` variant:
(number of `dev.connect()` calls, last recorded error, sleep delays). -/
def connectLoopDev (d : ConnDev) : Nat × Option String × List Nat :=
  let a1 := connAttempt d 0 none
  if a1.2.2.2 then (a1.1, a1.2.1, a1.2.2.1)
  else
    let a2 := connAttempt d a1.1 a1.2.1
    if a2.2.2.2 then (a2.1, a2.2.1, a1.2.2.1 ++ a2.2.2.1)
    else
      let a3 := connAttempt d a2.1 a2.2.1
      (a3.1, a3.2.1, a1.2.2.1 ++ a2.2.2.1 ++ a3.2.2.1)

/-- Python `repr` of the `last_err` variable (`None` or an exception,
whose text we carry directly). -/
def reprOpt : Option String → String
  | none => "None"
  | some e => e

/-- The whole connect phase of the `dev_capture.py` variant: the retry
loop, then the bounded poll, then the connected check.  Result, number of
connect calls, sleeps. -/
def devConnectPhase (d : ConnDev) : Except String Unit × Nat × List Nat :=
  let l := connectLoopDev d
  if d.hasConnected && devConnected d l.1 then (.ok (), l.1, l.2.2)
  else
    (.error ("Device did not connect (last_err=" ++ reprOpt l.2.1 ++ ")"),
     l.1, l.2.2)

/-- The connect phase of the `grab_archive.py` variant: a single guarded
attempt, re-raised immediately on failure.  Result and number of connect
calls. -/
def grabConnectPhase (d : ConnDev) : Except String Unit × Nat :=
  if d.hasConnected && d.connected0 then
    if d.hasConnected && devConnected d 0 then (.ok (), 0)
    else (.error "Device did not connect within timeout", 0)
  else
    match d.outcome 0 with
    | some e => (.error ("dev.connect failed: " ++ e), 1)
    | none =>
      if d.hasConnected && devConnected d 1 then (.ok (), 1)
      else (.error "Device did not connect within timeout", 1)

/-- Claim C4 (amended): in the `dev_capture.py` / `deploy_staging.py` /
`deploy_prod.py` variant, a device whose connect call always raises is
attempted exactly 3 times with a fixed 3-second delay after each failing
attempt, and the connector then fails, carrying the last error, instead of
hanging.  (The `grab_archive.py` variant attempts only once — see the
counterexample.) -/
theorem c4_three_attempts_then_fail (d : ConnDev) (f : Nat → String)
    (h0 : d.connected0 = false)
    (hf : ∀ n, d.outcome n = some (f n)) :
    connectLoopDev d = (3, some (f 2), [3, 3, 3]) ∧
    devConnectPhase d =
      (.error ("Device did not connect (last_err=" ++ f 2 ++ ")"), 3, [3, 3, 3]) := by
  have hdc : ∀ k, devConnected d k = false := by
    intro k
    simp [devConnected, h0, hf]
  have hloop : connectLoopDev d = (3, some (f 2), [3, 3, 3]) := by
    simp [connectLoopDev, connAttempt, hdc, hf]
  exact ⟨hloop, by simp [devConnectPhase, hloop, hdc, reprOpt]⟩

/-- A device that always refuses the connection. -/
def c4dev : ConnDev := ⟨true, false, fun _ => some "refused"⟩

/-- Witness for C4 (amended): the always-refusing device is attempted
3 times by the `dev_capture.py` variant and the phase fails with the last
error. -/
theorem c4_three_attempts_then_fail_witness :
    connectLoopDev c4dev = (3, some "refused", [3, 3, 3]) ∧
    devConnectPhase c4dev =
      (.error "Device did not connect (last_err=refused)", 3, [3, 3, 3]) :=
  c4_three_attempts_then_fail c4dev (fun _ => "refused") rfl (fun _ => rfl)

/-- Counterexample to C4 as stated: the `grab_archive.py` variant of
`_connect_and_login` (one of the two symbols the claim cites) calls
`dev.connect()` exactly once on the always-refusing device and raises
immediately with the first error — there is no 3-attempt retry. -/
theorem c4_single_attempt_counterexample :
    (grabConnectPhase c4dev).2 = 1 ∧
    (grabConnectPhase c4dev).1 = .error "dev.connect failed: refused" ∧
    ¬ (grabConnectPhase c4dev).2 = 3 :=
  ⟨rfl, rfl, by decide⟩

/-! ## VersionControlGateway: the git helpers of `grab_archive.py`

`_run_git` shells out to git and returns `(returncode, stdout, stderr)`;
the subprocess is modelled as an oracle from the argument list to that
triple (`_run_git` itself catches `Popen` failures and returns a triple,
so the oracle is total). -/

def GitO := List String → Nat × String × String

def stripStr (s : String) : String := String.mk (stripChars s.toList)

/-- Python `str.split()` (no argument): split on whitespace runs. -/
def splitWsGo : List Char → List Char → List String
  | [], cur => if cur = [] then [] else [String.mk cur.reverse]
  | c :: rest, cur =>
    if isWs c then
      if cur = [] then splitWsGo rest []
      else String.mk cur.reverse :: splitWsGo rest []
    else splitWsGo rest (c :: cur)

def splitWs (s : String) : List String := splitWsGo s.toList []

def splitLinesStr (s : String) : List String :=
  (splitLines s.toList).map String.mk

/-- ASCII lowering — all the source ever lowercases is git output
compared against `"nothing to commit"`. -/
def charLower (c : Char) : Char :=
  if 'A' ≤ c && c ≤ 'Z' then Char.ofNat (c.toNat + 32) else c

def toLowerStr (s : String) : String := String.mk (s.toList.map charLower)

def containsStr (pat s : String) : Bool := containsSub pat.toList s.toList

def slashify (s : String) : String :=
  String.mk (s.toList.map fun c => if c = '\\' then '/' else c)

def _git_has_origin (g : GitO) : Bool :=
  let r := g ["remote"]
  r.1 == 0 && (splitWs r.2.1).contains "origin"

def _git_rev (g : GitO) (ref : String) : String :=
  let r := g ["rev-parse", ref]
  if r.1 == 0 then stripStr r.2.1 else ""

/-- `_git_remote_has_new_commit` (grab_archive.py lines 211-216). -/
def _git_remote_has_new_commit (g : GitO) (branch : String) :
    Bool × String × String :=
  let l := _git_rev g branch
  let r := _git_rev g ("origin/" ++ branch)
  if l = "" ∨ r = "" then (false, l, r)
  else (l != r, l, r)

def _git_fetch (g : GitO) : Bool :=
  if _git_has_origin g then (g ["fetch", "origin"]).1 == 0 else false

def _git_fast_forward (g : GitO) (branch : String) : Bool :=
  (g ["pull", "--ff-only", "origin", branch]).1 == 0

def _git_status_porcelain (g : GitO) (rel : String) : String :=
  let r := g ["status", "--porcelain", "--", rel]
  if r.1 == 0 then stripStr r.2.1 else ""

def _git_is_tracked (g : GitO) (rel : String) : Bool :=
  (g ["ls-files", "--error-unmatch", rel]).1 == 0

def _git_has_diff_against_head (g : GitO) (rel : String) : Bool × String :=
  let r := g ["diff", "HEAD", "--", rel]
  if r.1 == 0 then (stripStr r.2.1 != "", r.2.1) else (true, r.2.1)

def _git_cached_names (g : GitO) : List String :=
  let r := g ["diff", "--cached", "--name-only"]
  if r.1 == 0 then
    ((splitLinesStr r.2.1).map stripStr).filter fun s => s != ""
  else []

/-- `_git_add_commit_push_only_file` (grab_archive.py lines 252-280). -/
def _git_add_commit_push_only_file (g : GitO) (rel msg branch : String) :
    Bool × String :=
  if (g ["add", "-f", "--", rel]).1 != 0 then (false, "git add failed")
  else if ¬ (((_git_cached_names g).map slashify).contains (slashify rel)) then
    (false, "file not staged")
  else
    let r2 := g ["commit", "-m", msg, "--", rel]
    if r2.1 != 0 then
      if containsStr "nothing to commit" (toLowerStr (r2.2.1 ++ r2.2.2)) then
        (true, "nothing to commit")
      else (false, "git commit failed")
    else if _git_has_origin g then
      if (g ["push", "origin", branch]).1 == 0 then (true, "committed+push")
      else (false, "git push failed")
    else (true, "committed+push")

/-- `_git_status_porcelain` of `dev_capture.py` (whole tree, no path). -/
def _git_status_porcelain_all (g : GitO) : String :=
  let r := g ["status", "--porcelain"]
  if r.1 == 0 then stripStr r.2.1 else ""

/-- `_git_commit_all_if_dirty` (dev_capture.py lines 137-164). -/
def _git_commit_all_if_dirty (g : GitO) (branch msg : String) :
    Bool × String :=
  if _git_status_porcelain_all g = "" then (true, "clean")
  else if (g ["add", "-A"]).1 != 0 then (false, "git add -A failed")
  else
    let r2 := g ["commit", "-m", msg]
    if r2.1 != 0 then
      if containsStr "nothing to commit" (toLowerStr (r2.2.1 ++ r2.2.2)) then
        (true, "nothing to commit")
      else (false, "git commit failed")
    else if _git_has_origin g then
      if (g ["push", "origin", branch]).1 == 0 then (true, "committed+push")
      else (false, "git push failed")
    else (true, "committed+push")

/-! ## RuntimeConnector: session, login and teardown (`grab_archive.py`) -/

/-- Observable device-automation events of one tier flow. -/
inductive DEv where
  | openProject
  | connectCall
  | loginCall
  | sourcePull
  | saveArchive
  | exportCall
  | normalizeCall
  | downloadAttempt
  | startCall
  | teardown
  | disconnectCall
  | logoutCall
deriving DecidableEq, Repr

/-- The session-facing oracle for `_connect_and_login`, login and
teardown (`grab_archive.py` lines 367-428). -/
structure SessDev where
  conn : ConnDev
  isLoggedIn0 : Bool
  hasOCO : Bool
  loginRaises : Option String
  loginOk : Bool
  hasStart : Bool
  hasDisconnect : Bool
  disconnectRaises : Option String
  hasLogout : Bool
  logoutRaises : Option String

/-- `_connect_and_login` of `grab_archive.py`: the single-attempt connect
phase, then login with the Keep policy if not already logged in; a login
that raises or does not reach the logged-in state raises. -/
def connectLoginGrab (s : SessDev) : Except String Unit × List DEv :=
  let c := grabConnectPhase s.conn
  let evs := List.replicate c.2 DEv.connectCall
  match c.1 with
  | .error e => (.error e, evs)
  | .ok _ =>
    if s.isLoggedIn0 then (.ok (), evs)
    else if ¬ s.hasOCO then
      (.error "OnlineChangeOption not found in globals()", evs)
    else
      match s.loginRaises with
      | some e => (.error ("online_app.login failed: " ++ e), evs ++ [DEv.loginCall])
      | none =>
        if s.loginOk then (.ok (), evs ++ [DEv.loginCall])
        else (.error "Login failed", evs ++ [DEv.loginCall])

/-- `_disconnect_best_effort` (grab_archive.py lines 418-428): disconnect
if connected, then log out; each step sits in its own bare
`try/except: pass`, so a raising step is recorded but changes nothing. -/
def disconnectBE (s : SessDev) : List DEv :=
  let evs1 :=
    if s.conn.hasConnected && devConnected s.conn 1 && s.hasDisconnect then
      match s.disconnectRaises with
      | some _ => [DEv.disconnectCall]
      | none => [DEv.disconnectCall]
    else []
  let evs2 :=
    if s.hasLogout then
      match s.logoutRaises with
      | some _ => [DEv.logoutCall]
      | none => [DEv.logoutCall]
    else []
  DEv.teardown :: evs1 ++ evs2

/-- Replace the teardown-raising behaviour of a session oracle. -/
def withTeardownRaises (s : SessDev) (e1 e2 : Option String) : SessDev :=
  ⟨s.conn, s.isLoggedIn0, s.hasOCO, s.loginRaises, s.loginOk, s.hasStart,
   s.hasDisconnect, e1, s.hasLogout, e2⟩

/-! ## CapabilityProbe: `_try_download_to_controller` (grab_archive.py) -/

structure DlDev where
  hasOCO : Bool
  hasMethod : String → Bool
  hasOpt : String → Bool
  callOpt : String → String → Option String
  callNoArg : String → Option String

def methodNames : List String := ["download", "application_download", "program_download"]

def optNames : List String := ["Download", "FullDownload", "All", "Keep"]

/-- The inner option loop for one method: first non-raising invocation
wins; otherwise the last error is threaded through. -/
def tryOpts (d : DlDev) (m : String) : String → List String → Option String × String
  | lastErr, [] => (none, lastErr)
  | lastErr, o :: os =>
    if d.hasOpt o then
      match d.callOpt m o with
      | none => (some ("online_app." ++ m ++ "(" ++ o ++ ")"), lastErr)
      | some e => tryOpts d m e os
    else tryOpts d m lastErr os

/-- The outer method loop, with the final no-argument fallback per
method. -/
def tryMethods (d : DlDev) : String → List String → Bool × String
  | lastErr, [] => (false, "no working download method (last_err=" ++ lastErr ++ ")")
  | lastErr, m :: ms =>
    if ¬ d.hasMethod m then tryMethods d lastErr ms
    else
      match tryOpts d m lastErr optNames with
      | (some desc, _) => (true, desc)
      | (none, _) =>
        match d.callNoArg m with
        | none => (true, "online_app." ++ m ++ "()")
        | some e => tryMethods d e ms

def _try_download_to_controller (d : DlDev) : Bool × String :=
  if ¬ d.hasOCO then (false, "OnlineChangeOption missing")
  else tryMethods d "n/a" methodNames

/-! ## DeployOrchestrator: `run_capture` and `run_deploy` -/

/-- The post-session body of `run_deploy`: capability-probed download,
then a best-effort `start()` whose failure is swallowed. -/
def deployBody (dl : DlDev) (s : SessDev) :
    Except String (Bool × String) × List DEv :=
  let r := _try_download_to_controller dl
  if r.1 then
    (.ok (true, "deployed (" ++ r.2 ++ ")"),
     DEv.downloadAttempt :: (if s.hasStart then [DEv.startCall] else []))
  else (.ok (false, "download failed (" ++ r.2 ++ ")"), [DEv.downloadAttempt])

/-- `run_deploy` (grab_archive.py lines 560-598).  The event list records
every device-facing action; git actions are oracle reads. -/
def run_deploy (g : GitO) (s : SessDev) (dl : DlDev) (waitApp : Bool)
    (branch : String) : Except String (Bool × String) × List DEv :=
  if ¬ _git_has_origin g then (.ok (false, "no origin"), [])
  else
    let _fetch := _git_fetch g
    let hasNew := (_git_remote_has_new_commit g branch).1
    if ¬ hasNew then (.ok (true, "no remote changes"), [])
    else if ¬ _git_fast_forward g branch then
      (.ok (false, "ff-pull failed (branch diverged)"), [])
    else
      let evs0 := [DEv.openProject]
      if ¬ waitApp then (.ok (false, "active_application timeout"), evs0)
      else
        let cl := connectLoginGrab s
        match cl.1 with
        | .error e => (.error e, evs0 ++ cl.2)
        | .ok _ =>
          let body := deployBody dl s
          (body.1, evs0 ++ cl.2 ++ body.2 ++ disconnectBE s)

/-- The capture-flow oracle: behaviour of the CODESYS calls made between
login and teardown. -/
structure CapDev where
  sess : SessDev
  waitApp : Bool
  hasSourceDownload : Bool
  srcDownloadRaises : Option String
  hasSourceUpload : Bool
  srcUploadRaises : Option String
  hasSaveArchive : Bool
  saveArchiveRaises : Option String
  exportAppRaises : Option String
  exportProjRaises : Option String
  artifact : String

/-- Repo-relative path of the single PLCopen artifact. -/
def relXml : String := "exports/plcopen/PLC_latest.plcopen.xml"

/-- The git tail of `run_capture`: status, tracking, diff-vs-HEAD, and the
single-path commit (grab_archive.py lines 537-555). -/
def captureGitTail (g : GitO) (branch plcName ts : String) : Bool × String :=
  let statusLine := _git_status_porcelain g relXml
  let tracked := _git_is_tracked g relXml
  let hasDiff := if tracked then (_git_has_diff_against_head g relXml).1 else true
  if (!hasDiff) && (statusLine == "") then (true, "capture ok (no diff)")
  else
    let r := _git_add_commit_push_only_file g relXml
      (plcName ++ " export " ++ ts) branch
    if r.1 then (true, "capture committed (" ++ r.2 ++ ")")
    else (false, "capture git failed (" ++ r.2 ++ ")")

/-- The body of `run_capture`'s `try:` block: source pull (uncaught),
archive save (uncaught), the two guarded PLCopen export attempts, the
normalize call, and the git tail. -/
def captureBody (g : GitO) (d : CapDev) (branch plcName ts : String) :
    Except String (Bool × String) × List DEv :=
  let pull : Except String Unit × List DEv :=
    if d.hasSourceDownload then
      ((match d.srcDownloadRaises with | some e => .error e | none => .ok ()),
       [DEv.sourcePull])
    else if d.hasSourceUpload then
      ((match d.srcUploadRaises with | some e => .error e | none => .ok ()),
       [DEv.sourcePull])
    else (.ok (), [])
  match pull.1 with
  | .error e => (.error e, pull.2)
  | .ok _ =>
    let save : Except String Unit × List DEv :=
      if d.hasSaveArchive then
        ((match d.saveArchiveRaises with | some e => .error e | none => .ok ()),
         [DEv.saveArchive])
      else (.ok (), [])
    match save.1 with
    | .error e => (.error e, pull.2 ++ save.2)
    | .ok _ =>
      if d.exportAppRaises.isNone || d.exportProjRaises.isNone then
        let _nrm := normalize_plcopen_xml (.content d.artifact)
        (.ok (captureGitTail g branch plcName ts),
         pull.2 ++ save.2 ++ [DEv.exportCall, DEv.normalizeCall])
      else
        (.ok (false, "PLCopen export failed"), pull.2 ++ save.2 ++ [DEv.exportCall])

/-- `run_capture` (grab_archive.py lines 465-558): project open, active
application wait, `_connect_and_login` (its exception propagates — the
`try/finally` is installed just after), then the body with
`_disconnect_best_effort` in `finally`. -/
def run_capture (g : GitO) (d : CapDev) (branch plcName ts : String) :
    Except String (Bool × String) × List DEv :=
  let evs0 := [DEv.openProject]
  if ¬ d.waitApp then (.ok (false, "active_application timeout"), evs0)
  else
    let cl := connectLoginGrab d.sess
    match cl.1 with
    | .error e => (.error e, evs0 ++ cl.2)
    | .ok _ =>
      let body := captureBody g d branch plcName ts
      (body.1, evs0 ++ cl.2 ++ body.2 ++ disconnectBE d.sess)

/-! ## Claim theorems C5, C6, C7, C9 -/

/-- Claim C5: when the tier's local and remote commit ids are equal (and
an origin is configured), `run_deploy` returns the OK outcome
"no remote changes" and performs no device-facing action at all: no
project open, no connect, no login. -/
theorem c5_gate_blocks_session (g : GitO) (s : SessDev) (dl : DlDev)
    (wa : Bool) (branch : String)
    (hO : _git_has_origin g = true)
    (hEq : _git_rev g branch = _git_rev g ("origin/" ++ branch)) :
    run_deploy g s dl wa branch = (.ok (true, "no remote changes"), []) ∧
    DEv.openProject ∉ (run_deploy g s dl wa branch).2 ∧
    DEv.connectCall ∉ (run_deploy g s dl wa branch).2 ∧
    DEv.loginCall ∉ (run_deploy g s dl wa branch).2 := by
  have hnew : (_git_remote_has_new_commit g branch).1 = false := by
    rw [_git_remote_has_new_commit]
    by_cases h : _git_rev g branch = "" ∨ _git_rev g ("origin/" ++ branch) = ""
    · simp [h]
    · simp [h, hEq]
  have hr : run_deploy g s dl wa branch = (.ok (true, "no remote changes"), []) := by
    simp [run_deploy, hO, hnew]
  refine ⟨hr, ?_, ?_, ?_⟩ <;> simp [hr]

def c5git : GitO := fun args =>
  if args = ["remote"] then (0, "origin\n", "")
  else if args = ["rev-parse", "staging"] then (0, "abc123\n", "")
  else if args = ["rev-parse", "origin/staging"] then (0, "abc123\n", "")
  else (0, "", "")

/-- A session whose device would reject any contact: if the gate let a
connection through, the flow would raise. -/
def c5sess : SessDev :=
  ⟨⟨true, false, fun _ => some "never reached"⟩, false, true, none, true,
   true, true, none, true, none⟩

def c5dl : DlDev :=
  ⟨true, fun _ => false, fun _ => false, fun _ _ => some "e", fun _ => some "e"⟩

/-- Witness for C5: with equal commit ids the deploy flow stops with
"no remote changes" and an empty device-event trace, even though the
device oracle would fail any contact. -/
theorem c5_gate_blocks_session_witness :
    _git_has_origin c5git = true ∧
    _git_rev c5git "staging" = _git_rev c5git "origin/staging" ∧
    run_deploy c5git c5sess c5dl true "staging" =
      (.ok (true, "no remote changes"), []) :=
  ⟨by decide, by decide,
   (c5_gate_blocks_session c5git c5sess c5dl true "staging"
     (by decide) (by decide)).1⟩

/-- The spec's notion, in the spec's words: the remote branch is ahead of
the local branch — both ids resolve, they differ, and the local commit is
an ancestor of the remote commit (`anc l r` = "l is an ancestor of r"). -/
def remote_ahead_spec (anc : String → String → Bool) (l r : String) : Bool :=
  (l != "") && (r != "") && (l != r) && anc l r

/-- Claim C6 (amended): `_git_remote_has_new_commit` returns true exactly
when both commit ids resolve and they differ — whether the remote is
ahead, behind, or diverged — and returns false, not an error, whenever
either id cannot be resolved; it also reports the two ids. -/
theorem c6_remote_gate_characterization (g : GitO) (b : String) :
    ((_git_remote_has_new_commit g b).1 = true ↔
      (_git_rev g b ≠ "" ∧ _git_rev g ("origin/" ++ b) ≠ "" ∧
        _git_rev g b ≠ _git_rev g ("origin/" ++ b))) ∧
    (_git_remote_has_new_commit g b).2.1 = _git_rev g b ∧
    (_git_remote_has_new_commit g b).2.2 = _git_rev g ("origin/" ++ b) := by
  refine ⟨?_, ?_, ?_⟩ <;>
    · rw [_git_remote_has_new_commit]
      by_cases h1 : _git_rev g b = "" <;>
        by_cases h2 : _git_rev g ("origin/" ++ b) = "" <;>
          simp [h1, h2, bne_iff_ne]

/-- A git world in which the local branch `prod` is one commit ahead of
`origin/prod`. -/
def c6git : GitO := fun args =>
  if args = ["rev-parse", "prod"] then (0, "ffff2222\n", "")
  else if args = ["rev-parse", "origin/prod"] then (0, "eeee1111\n", "")
  else (1, "", "")

/-- Ancestry of that world: `eeee1111` (the remote tip) is an ancestor of
`ffff2222` (the local tip), and every commit is an ancestor of itself. -/
def c6anc : String → String → Bool := fun a b =>
  (a == "eeee1111" && b == "ffff2222") || a == b

/-- Counterexample to C6 as stated: with the local branch ahead of the
remote, the ids differ, so `_git_remote_has_new_commit` returns true —
but the remote branch is not ahead of the local branch (it is strictly
behind: its tip is an ancestor of the local tip). -/
theorem c6_inequality_not_ahead_counterexample :
    (_git_remote_has_new_commit c6git "prod").1 = true ∧
    remote_ahead_spec c6anc (_git_remote_has_new_commit c6git "prod").2.1
      (_git_remote_has_new_commit c6git "prod").2.2 = false ∧
    c6anc (_git_remote_has_new_commit c6git "prod").2.2
      (_git_remote_has_new_commit c6git "prod").2.1 = true :=
  ⟨by decide, by decide, by decide⟩

/-- Claim C7: once a flow has established its session
(`_connect_and_login` returned), teardown runs on every exit path — the
event trace of `run_capture` and of `run_deploy` always ends with the
`_disconnect_best_effort` events, also when the flow body raises — and
teardown's own failures are swallowed: its behaviour is unchanged by
raising disconnect or logout calls. -/
theorem c7_teardown_always_runs (g : GitO) (d : CapDev) (s : SessDev)
    (dl : DlDev) (branch plcName ts : String)
    (hwc : d.waitApp = true)
    (hcc : (connectLoginGrab d.sess).1 = .ok ())
    (hO : _git_has_origin g = true)
    (hNew : (_git_remote_has_new_commit g branch).1 = true)
    (hff : _git_fast_forward g branch = true)
    (hcs : (connectLoginGrab s).1 = .ok ()) :
    (∃ p, (run_capture g d branch plcName ts).2 = p ++ disconnectBE d.sess) ∧
    DEv.teardown ∈ (run_capture g d branch plcName ts).2 ∧
    (∃ q, (run_deploy g s dl true branch).2 = q ++ disconnectBE s) ∧
    DEv.teardown ∈ (run_deploy g s dl true branch).2 ∧
    (∀ e1 e2, disconnectBE (withTeardownRaises s e1 e2) = disconnectBE s) := by
  have hcap : run_capture g d branch plcName ts =
      ((captureBody g d branch plcName ts).1,
       [DEv.openProject] ++ (connectLoginGrab d.sess).2 ++
         (captureBody g d branch plcName ts).2 ++ disconnectBE d.sess) := by
    rw [run_capture]
    simp [hwc, hcc]
  have hdep : run_deploy g s dl true branch =
      ((deployBody dl s).1,
       [DEv.openProject] ++ (connectLoginGrab s).2 ++
         (deployBody dl s).2 ++ disconnectBE s) := by
    rw [run_deploy]
    simp [hO, hNew, hff, hcs]
  refine ⟨?_, ?_, ?_, ?_, ?_⟩
  · exact ⟨_, by rw [hcap]⟩
  · rw [hcap]
    simp [disconnectBE]
  · exact ⟨_, by rw [hdep]⟩
  · rw [hdep]
    simp [disconnectBE]
  · intro e1 e2
    cases e1 <;> cases e2 <;>
      cases h1 : s.disconnectRaises <;> cases h2 : s.logoutRaises <;>
        simp [disconnectBE, withTeardownRaises, h1, h2]

/-- A session that is connected and logged in from the start, whose
teardown calls both raise (the raises must be swallowed). -/
def c7sess : SessDev :=
  ⟨⟨true, true, fun _ => none⟩, true, true, none, true, true,
   true, some "disconnect failed", true, some "logout failed"⟩

/-- A capture oracle whose body raises inside the `try:` block
(`source_download` fails). -/
def c7cap : CapDev :=
  ⟨c7sess, true, true, some "source_download boom", false, none,
   false, none, none, none, "<x/>"⟩

def c7git : GitO := fun args =>
  if args = ["remote"] then (0, "origin", "")
  else if args = ["rev-parse", "staging"] then (0, "aaa", "")
  else if args = ["rev-parse", "origin/staging"] then (0, "bbb", "")
  else if args = ["pull", "--ff-only", "origin", "staging"] then (0, "", "")
  else (0, "", "")

def c7dl : DlDev :=
  ⟨true, fun m => m == "download", fun o => o == "Download",
   fun _ _ => none, fun _ => none⟩

/-- Witness for C7: the capture body raises, the flow result is that
exception, and the teardown event is still in both flows' traces. -/
theorem c7_teardown_always_runs_witness :
    (run_capture c7git c7cap "dev" "PLC_DEV" "20250101_000000").1 =
      .error "source_download boom" ∧
    DEv.teardown ∈ (run_capture c7git c7cap "dev" "PLC_DEV" "20250101_000000").2 ∧
    DEv.teardown ∈ (run_deploy c7git c7sess c7dl true "staging").2 :=
  ⟨rfl,
   (c7_teardown_always_runs c7git c7cap c7sess c7dl "staging" "PLC_DEV"
     "20250101_000000" rfl rfl (by decide) (by decide) (by decide) rfl).2.1,
   (c7_teardown_always_runs c7git c7cap c7sess c7dl "staging" "PLC_DEV"
     "20250101_000000" rfl rfl (by decide) (by decide) (by decide) rfl).2.2.2.1⟩

/-- Claim C9: a commit whose git result is "nothing to commit" is treated
as success by both commit helpers, and the capture flow then reports the
OK outcome. -/
theorem c9_nothing_to_commit_success (g : GitO) (d : CapDev)
    (branch plcName ts msgAll : String)
    (hadd : (g ["add", "-f", "--", relXml]).1 = 0)
    (hstaged : ((_git_cached_names g).map slashify).contains (slashify relXml) = true)
    (hrc : (g ["commit", "-m", plcName ++ " export " ++ ts, "--", relXml]).1 ≠ 0)
    (hntc : containsStr "nothing to commit"
      (toLowerStr ((g ["commit", "-m", plcName ++ " export " ++ ts, "--", relXml]).2.1 ++
        (g ["commit", "-m", plcName ++ " export " ++ ts, "--", relXml]).2.2)) = true)
    (hst : ¬ _git_status_porcelain_all g = "")
    (haddA : (g ["add", "-A"]).1 = 0)
    (hrcA : (g ["commit", "-m", msgAll]).1 ≠ 0)
    (hntcA : containsStr "nothing to commit"
      (toLowerStr ((g ["commit", "-m", msgAll]).2.1 ++
        (g ["commit", "-m", msgAll]).2.2)) = true)
    (hw : d.waitApp = true)
    (hcl : (connectLoginGrab d.sess).1 = .ok ())
    (hsd : d.hasSourceDownload = false)
    (hsu : d.hasSourceUpload = false)
    (hsa : d.hasSaveArchive = false)
    (hex : d.exportAppRaises = none)
    (htr : _git_is_tracked g relXml = false) :
    _git_add_commit_push_only_file g relXml (plcName ++ " export " ++ ts) branch =
      (true, "nothing to commit") ∧
    _git_commit_all_if_dirty g branch msgAll = (true, "nothing to commit") ∧
    (run_capture g d branch plcName ts).1 =
      .ok (true, "capture committed (nothing to commit)") := by
  have h1 : _git_add_commit_push_only_file g relXml
      (plcName ++ " export " ++ ts) branch = (true, "nothing to commit") := by
    have hst2 : ∃ x ∈ _git_cached_names g, slashify x = slashify relXml := by
      simpa using hstaged
    rw [_git_add_commit_push_only_file]
    simp [hadd, hrc, hntc, hst2]
  have h2 : _git_commit_all_if_dirty g branch msgAll = (true, "nothing to commit") := by
    rw [_git_commit_all_if_dirty]
    simp [hst, haddA, hrcA, hntcA]
  refine ⟨h1, h2, ?_⟩
  have htail : captureGitTail g branch plcName ts =
      (true, "capture committed (nothing to commit)") := by
    rw [captureGitTail]
    simp [htr, h1]
  have hbody : (captureBody g d branch plcName ts).1 =
      .ok (true, "capture committed (nothing to commit)") := by
    rw [captureBody]
    simp [hsd, hsu, hsa, hex, htail]
  rw [run_capture]
  simp [hw, hcl, hbody]

def c9git : GitO := fun args =>
  if args = ["add", "-f", "--", relXml] then (0, "", "")
  else if args = ["diff", "--cached", "--name-only"] then (0, relXml ++ "\n", "")
  else if args.take 2 = ["commit", "-m"] then
    (1, "On branch dev\nnothing to commit, working tree clean\n", "")
  else if args = ["status", "--porcelain"] then
    (0, " M exports/plcopen/PLC_latest.plcopen.xml", "")
  else if args = ["add", "-A"] then (0, "", "")
  else if args = ["remote"] then (0, "origin", "")
  else (1, "", "")

def c9sess : SessDev :=
  ⟨⟨true, true, fun _ => none⟩, true, true, none, true, true, true, none,
   true, none⟩

def c9cap : CapDev :=
  ⟨c9sess, true, false, none, false, none, false, none, none, none, "<x/>"⟩

/-- Witness for C9: a concrete git world whose commit answers "nothing to
commit" makes both helpers succeed and the capture flow end OK. -/
theorem c9_nothing_to_commit_success_witness :
    _git_add_commit_push_only_file c9git relXml "PLC_DEV export t" "dev" =
      (true, "nothing to commit") ∧
    _git_commit_all_if_dirty c9git "dev" "DEV capture t" =
      (true, "nothing to commit") ∧
    (run_capture c9git c9cap "dev" "PLC_DEV" "t").1 =
      .ok (true, "capture committed (nothing to commit)") :=
  c9_nothing_to_commit_success c9git c9cap "dev" "PLC_DEV" "t" "DEV capture t"
    (by decide) (by decide) (by decide) (by decide) (by decide) (by decide)
    (by decide) (by decide) rfl rfl rfl rfl rfl rfl (by decide)

/-! ## The orchestrator main loop (grab_archive.py lines 634-678)

```python
for branch in BRANCHES:
    try:
        if not _git_checkout(branch):
            summary[branch] = ("FAIL", "checkout failed"); overall_ok = False; continue
        ...
        ok, msg = run_capture(...) / run_deploy(...)
        summary[branch] = ("OK" if ok else "FAIL", msg)
        ...
    except Exception as e:
        overall_ok = False
        summary[branch] = ("FAIL", "exception: %s" % repr(e))
```

`ck b` is the result of `_git_checkout(b)` and `fl b` the result of the
tier's flow (`.error` models an exception escaping it); both are
parameters because the claim quantifies over arbitrary tier behaviour. -/

def BRANCHES : List String := ["dev", "staging", "prod"]

/-- The outcome recorded for one tier by the loop body. -/
def tierOutcome (ck : Bool) (fr : Except String (Bool × String)) :
    String × String :=
  if ck then
    match fr with
    | .error e => ("FAIL", "exception: " ++ e)
    | .ok r => ((if r.1 then "OK" else "FAIL"), r.2)
  else ("FAIL", "checkout failed")

/-- The per-branch loop of `main`, building the summary in order. -/
def mainLoop (ck : String → Bool)
    (fl : String → Except String (Bool × String)) :
    List String → List (String × String × String)
  | [] => []
  | b :: bs =>
    (if ck b then
      match fl b with
      | .error e => (b, "FAIL", "exception: " ++ e)
      | .ok r => (b, (if r.1 then "OK" else "FAIL"), r.2)
    else (b, "FAIL", "checkout failed")) :: mainLoop ck fl bs

/-- The run summary of one orchestrator run. -/
def mainSummary (ck : String → Bool)
    (fl : String → Except String (Bool × String)) :
    List (String × String × String) :=
  mainLoop ck fl BRANCHES

/-- Claim C8: every tier obtains exactly one summary entry that is a
function of that tier's own checkout result and flow result alone — an
exception in a flow is caught at the tier boundary and recorded as that
tier's FAIL outcome — and the production entry is unchanged by any change
to the other tiers' flows. -/
theorem c8_tier_isolation (ck : String → Bool)
    (fl : String → Except String (Bool × String)) :
    mainSummary ck fl =
      BRANCHES.map (fun b => (b, tierOutcome (ck b) (fl b))) ∧
    (∀ e, tierOutcome true (.error e) = ("FAIL", "exception: " ++ e)) ∧
    (∀ fl2 : String → Except String (Bool × String),
      fl2 "prod" = fl "prod" →
      (mainSummary ck fl2).getLast? = (mainSummary ck fl).getLast?) := by
  have hmap : ∀ (f : String → Except String (Bool × String)) (bs : List String),
      mainLoop ck f bs = bs.map (fun b => (b, tierOutcome (ck b) (f b))) := by
    intro f bs
    induction bs with
    | nil => rfl
    | cons b bs ih =>
      cases hck : ck b <;> cases hfl : f b <;>
        simp [mainLoop, tierOutcome, hck, hfl, ih]
  refine ⟨hmap fl BRANCHES, fun e => rfl, ?_⟩
  intro fl2 h
  rw [mainSummary, mainSummary, hmap fl2, hmap fl]
  simp [BRANCHES, h]

def c8ck : String → Bool := fun _ => true

def c8fl : String → Except String (Bool × String) := fun b =>
  if b = "staging" then .error "RuntimeError raised inside staging flow"
  else if b = "prod" then .ok (true, "deployed (online_app.download(Download))")
  else .ok (true, "capture ok (no diff)")

def c8fl2 : String → Except String (Bool × String) := fun b =>
  if b = "staging" then .ok (false, "download failed (x)") else c8fl b

/-- Witness for C8: a forced staging failure is recorded as
`staging: FAIL` while dev and prod still receive their own outcomes, and
replacing the staging flow does not change the production entry. -/
theorem c8_tier_isolation_witness :
    mainSummary c8ck c8fl =
      [("dev", "OK", "capture ok (no diff)"),
       ("staging", "FAIL", "exception: RuntimeError raised inside staging flow"),
       ("prod", "OK", "deployed (online_app.download(Download))")] ∧
    (mainSummary c8ck c8fl2).getLast? = (mainSummary c8ck c8fl).getLast? :=
  ⟨by decide, (c8_tier_isolation c8ck c8fl).2.2 c8fl2 rfl⟩

end PlcAgent
